import Mathlib

/-!
Verification of the Timesheet reconciliation engine.

The definitions below are a shallow embedding of the JavaScript sources:
`absenceReport.js` (AbsenceReportGenerator), `generator.js`
(TimesheetGenerator), `projectSummary.js` (ProjectSummaryGenerator), the
DataValidator module and the FoodAllowanceCalculator module.  Dates are
represented by their (year, month, day) components; the canonical
`YYYY-MM-DD` date-key string produced by `formatDateLocal` is determined by
and determines those components, so the component triple itself serves as
the date key.  JavaScript numbers that only ever hold integers are `Int` or
`Nat`; monetary amounts are `Rat`.
-/

namespace Timesheet

/-- Gregorian leap-year rule, as implemented by the JavaScript Date object
underlying `new Date(year, month, 0).getDate()`. -/
def isLeapYear (y : Int) : Bool :=
  (y % 4 == 0 && y % 100 != 0) || (y % 400 == 0)

/-- Days in a month (month is 1-12), the value of
`new Date(year, month, 0).getDate()` in all five source modules. -/
def daysInMonth (y : Int) (m : Nat) : Nat :=
  match m with
  | 1 => 31
  | 2 => if isLeapYear y then 29 else 28
  | 3 => 31
  | 4 => 30
  | 5 => 31
  | 6 => 30
  | 7 => 31
  | 8 => 31
  | 9 => 30
  | 10 => 31
  | 11 => 30
  | 12 => 31
  | _ => 31

/-- A calendar date, the component triple behind both a JavaScript Date's
local components and the canonical `YYYY-MM-DD` key string. -/
structure YMD where
  year : Int
  month : Nat
  day : Nat
deriving DecidableEq, Repr

/-- A fixed default date, used only as the out-of-range default of list
indexing. -/
def defaultYMD : YMD := { year := 0, month := 1, day := 1 }

/-- Days elapsed since 1970-01-01 (negative before), the civil-from-days
calculation that fixes the weekday of a Gregorian calendar date. -/
def daysFromCivil (d : YMD) : Int :=
  let y : Int := if d.month ≤ 2 then d.year - 1 else d.year
  let era : Int := (if 0 ≤ y then y else y - 399) / 400
  let yoe : Int := y - era * 400
  let mp : Nat := (d.month + 9) % 12
  let doy : Int := ((153 * mp + 2) / 5 : Nat) + d.day - 1
  let doe : Int := yoe * 365 + yoe / 4 - yoe / 100 + doy
  era * 146097 + doe - 719468

/-- Weekday of a date, 0 = Sunday .. 5 = Friday, 6 = Saturday, the value of
`date.getDay()` (1970-01-01 was a Thursday, weekday 4). -/
def dayOfWeek (d : YMD) : Nat :=
  (((daysFromCivil d + 4) % 7 + 7) % 7).toNat

/-- Number of days of weekday `w` in the given month: the loop of
`getTotalFridaysInMonth` / `getTotalSaturdaysInMonth` and the counting loop
at the top of `calculatePayrunAndAbsence`. -/
def countWeekdayInMonth (y : Int) (m : Nat) (w : Nat) : Nat :=
  (List.range (daysInMonth y m)).countP
    (fun i => dayOfWeek { year := y, month := m, day := i + 1 } == w)

end Timesheet

namespace Timesheet

/-! ## Attendance/Absence Reconciler: `AbsenceReportGenerator` -/

/-- One loaded timesheet entry of `AbsenceReportGenerator.loadTimesheetData`:
`{date, projectCode, projectName, isAnnualLeave}` where `isAnnualLeave`
is set when the project code equals `A/L` up to case. -/
structure AEntry where
  date : YMD
  projectCode : String
  projectName : String
  isAnnualLeave : Bool
deriving DecidableEq, Repr

/-- The per-employee result of `calculatePayrunAndAbsence` (the fields the
summary sheets read). -/
structure PayrunSummary where
  workedDays : Nat
  workedFridays : Nat
  workedSaturdays : Nat
  absence : Int
  payrunDays : Int
deriving DecidableEq, Repr

/-- The distinct dates of an entry list: the key set of the `dateMap`
grouping in `calculatePayrunAndAbsence` (one key per distinct
`formatDateLocal` string, i.e. per distinct date triple). -/
def distinctDates (entries : List AEntry) : List YMD :=
  (entries.map (fun e => e.date)).dedup

/-- `AbsenceReportGenerator.calculatePayrunAndAbsence` for one employee:
worked days are the distinct dates, worked Fridays/Saturdays count the
distinct dates whose weekday is Friday/Saturday, absence is the clamped
policy formula, and payrun days are `30 - absence`. -/
def absenceSummary (y : Int) (m : Nat) (isSatFri : Bool)
    (entries : List AEntry) : PayrunSummary :=
  let D := daysInMonth y m
  let F := countWeekdayInMonth y m 5
  let S := countWeekdayInMonth y m 6
  let dates := distinctDates entries
  let W := dates.length
  let wf := dates.countP (fun d => dayOfWeek d == 5)
  let ws := dates.countP (fun d => dayOfWeek d == 6)
  let raw : Int :=
    if isSatFri then (D : Int) - W - ((F : Int) + S - wf - ws)
    else (D : Int) - W - ((F : Int) - wf)
  let absence := max 0 raw
  { workedDays := W, workedFridays := wf, workedSaturdays := ws,
    absence := absence, payrunDays := 30 - absence }

/-! ## Attendance/Absence path of `TimesheetGenerator` -/

/-- One loaded entry of `TimesheetGenerator.processExcel`; the source also
caches `dayOfWeek: date.getDay()` on the entry, which always equals
`dayOfWeek date` and is recomputed here at use sites. -/
structure GEntry where
  projectCode : String
  projectName : String
  date : YMD
  enteredBy : String
deriving DecidableEq, Repr

/-- The per-employee result of `TimesheetGenerator.calculateSummaries`. -/
structure GSummary where
  totalAbsentDays : Int
  totalPayrunDays : Int
  workedFridays : Nat
  workedSaturdays : Nat
deriving DecidableEq, Repr

/-- `TimesheetGenerator.calculateSummaries` for one employee.  Worked days
are the distinct dates (a `Set` of date strings in the source), but
`workedFridays` / `workedSaturdays` are incremented once per raw entry
(`entries.forEach`), not once per distinct date. -/
def generatorSummary (y : Int) (m : Nat) (hasSatFriOff : Bool)
    (entries : List GEntry) : GSummary :=
  let D := daysInMonth y m
  let F := countWeekdayInMonth y m 5
  let S := countWeekdayInMonth y m 6
  let wf := entries.countP (fun e => dayOfWeek e.date == 5)
  let ws := entries.countP (fun e => dayOfWeek e.date == 6)
  let W := ((entries.map (fun e => e.date)).dedup).length
  let raw : Int :=
    if hasSatFriOff then (D : Int) - W - ((F : Int) + S - wf - ws)
    else (D : Int) - W - ((F : Int) - wf)
  let absence := max 0 raw
  { totalAbsentDays := absence, totalPayrunDays := 30 - absence,
    workedFridays := wf, workedSaturdays := ws }

/-! ## String utilities shared by the modules -/

/-- Collapse each run of adjacent spaces to a single space (the effect of
`replace(/\s+/g, ' ')` once every whitespace character is a space). -/
def squeezeSpaces : List Char → List Char
  | [] => []
  | a :: t =>
    match t with
    | [] => [a]
    | b :: _ =>
      if a = ' ' ∧ b = ' ' then squeezeSpaces t
      else a :: squeezeSpaces t

/-- Drop whitespace from both ends of a character list (`trim`). -/
def trimChars (l : List Char) : List Char :=
  ((l.dropWhile Char.isWhitespace).reverse.dropWhile Char.isWhitespace).reverse

/-- Character-wise lowercasing (`toLowerCase` on the ASCII names the
sources compare). -/
def lowerStr (s : String) : String :=
  String.mk (s.data.map Char.toLower)

/-- Character-wise uppercasing (`toUpperCase`). -/
def upperStr (s : String) : String :=
  String.mk (s.data.map Char.toUpper)

/-! ## Attendance Ingest -/

/-- The date cell of a raw row, abstracted by the outcome of the source's
parsing cascade (native Date value, `Y-M-D`/`Y/M/D` string, Excel serial
number, generic parse): `empty` when the cell is empty, `parsed d` when
some branch produced the valid date `d`, `invalid` when the value is of an
unhandled type or the produced date fails `isNaN(date.getTime())`. -/
inductive DateCell where
  | empty
  | parsed (d : YMD)
  | invalid
deriving DecidableEq, Repr

/-- A raw spreadsheet row (columns A-E after the header row); empty string
cells stand for the empty/falsy cells of the source. -/
structure RawRow where
  projectCode : String
  projectName : String
  dateCell : DateCell
  employeeName : String
  enteredBy : String
deriving DecidableEq, Repr

/-- An accepted record of `TimesheetGenerator.processExcel`. -/
structure IngestedRecord where
  projectCode : String
  projectName : String
  date : YMD
  employeeName : String
  enteredBy : String
deriving DecidableEq, Repr

/-- The per-row acceptance logic of `TimesheetGenerator.processExcel`:
skip when employee name or date cell is empty, when the date does not
parse, or when its month/year is not the target; otherwise default the
empty project code/name/enteredBy cells to the `--` sentinel. -/
def processRow (m : Nat) (y : Int) (r : RawRow) : Option IngestedRecord :=
  if r.employeeName = "" then none
  else
    match r.dateCell with
    | DateCell.empty => none
    | DateCell.invalid => none
    | DateCell.parsed d =>
      if d.month = m ∧ d.year = y then
        some { projectCode := if r.projectCode = "" then "--" else r.projectCode,
               projectName := if r.projectName = "" then "--" else r.projectName,
               date := d,
               employeeName := r.employeeName,
               enteredBy := if r.enteredBy = "" then "--" else r.enteredBy }
      else none

/-- An accepted record of `ProjectSummaryGenerator.loadTimesheetData`
(project name trimmed, no sentinel defaulting). -/
structure PSRecord where
  projectName : String
  date : YMD
  employeeName : String
deriving DecidableEq, Repr

/-- The per-row acceptance logic of
`ProjectSummaryGenerator.loadTimesheetData`: same as `processRow` except
that a row with an empty project name is also skipped
(`if (!employeeName || !dateValue || !projectName) return`) and the
accepted project name is trimmed instead of defaulted. -/
def psProcessRow (m : Nat) (y : Int) (r : RawRow) : Option PSRecord :=
  if r.employeeName = "" ∨ r.projectName = "" then none
  else
    match r.dateCell with
    | DateCell.empty => none
    | DateCell.invalid => none
    | DateCell.parsed d =>
      if d.month = m ∧ d.year = y then
        some { projectName := String.mk (trimChars r.projectName.data), date := d,
               employeeName := r.employeeName }
      else none

end Timesheet

namespace Timesheet

/-! ## Data Quality Auditor: `DataValidator` -/

/-- Validation status of a record; the source stores one of the strings
`Clean`, `Duplicate`, `Inconsistent` in the record's single `status`
field. -/
inductive VStatus where
  | clean
  | duplicate
  | inconsistent
deriving DecidableEq, Repr

/-- A record of `DataValidator.loadTimesheetData` (code, name, employee and
enteredBy already trimmed there). -/
structure VRec where
  rowNumber : Nat
  projectCode : String
  projectName : String
  date : YMD
  employeeName : String
  enteredBy : String
deriving DecidableEq, Repr

/-- A fixed default record, used only as the out-of-range default of list
indexing. -/
def defaultVRec : VRec :=
  { rowNumber := 0, projectCode := "", projectName := "",
    date := defaultYMD, employeeName := "", enteredBy := "" }

/-- The duplicate-detection key of `checkDuplicates` and
`generateCleanData`: the employee name together with the record's date key
(the source's `employeeName|dateStr` string). -/
def vkey (r : VRec) : String × YMD := (r.employeeName, r.date)

/-- Whether the record at position `i` is a repeat of an earlier record
with the same key: the `seen.has(key)` test of `checkDuplicates` when the
iteration reaches position `i`. -/
def isDupAt (rs : List VRec) (i : Nat) : Bool :=
  (rs.take i).any (fun r => decide (vkey r = vkey (rs.getD i defaultVRec)))

/-- `DataValidator.normalizeProjectName`:
`name.toLowerCase().trim().replace(/\s+/g, ' ')` — lowercase, trim, then
collapse each internal whitespace run to a single space. -/
def normalizeProjectName (s : String) : String :=
  String.mk (squeezeSpaces
    ((trimChars (s.data.map Char.toLower)).map
      (fun c => if c.isWhitespace then ' ' else c)))

/-- The records carrying a given project code: the `projectCodeMap` group
of `checkInconsistencies`. -/
def recordsWithCode (rs : List VRec) (c : String) : List VRec :=
  rs.filter (fun r => decide (r.projectCode = c))

/-- Whether `checkInconsistencies` reports the code: more than one distinct
normalized project name among the records carrying it. -/
def inconsistentCode (rs : List VRec) (c : String) : Bool :=
  decide (1 < ((recordsWithCode rs c).map
    (fun r => normalizeProjectName r.projectName)).dedup.length)

/-- Final status of the record at position `i` after `checkDuplicates` and
`checkInconsistencies` have run: duplicates first, and
`checkInconsistencies` only retags records still `Clean`. -/
def statusAt (rs : List VRec) (i : Nat) : VStatus :=
  if isDupAt rs i then VStatus.duplicate
  else if inconsistentCode rs (rs.getD i defaultVRec).projectCode then
    VStatus.inconsistent
  else VStatus.clean

/-- The positions kept by `generateCleanData`: first occurrence of each
key in original order, regardless of inconsistency status. -/
def cleanIndices (rs : List VRec) : List Nat :=
  (List.range rs.length).filter (fun i => !isDupAt rs i)

/-! ## Food-Allowance Evaluator: `FoodAllowanceCalculator` -/

/-- A row of the project-policy table (`loadProjectPolicies`). -/
structure ProjPolicy where
  projectName : String
  location : String
  policy1 : Bool
  policy2 : Bool
deriving DecidableEq, Repr

/-- A row of the employee-policy table (`loadEmployeePolicies`). -/
structure EmpPolicy where
  policy : String
  amount : Rat
deriving DecidableEq, Repr

/-- A loaded timesheet entry of `FoodAllowanceCalculator.loadTimesheetData`. -/
structure FEntry where
  date : YMD
  projectCode : String
  projectName : String
deriving DecidableEq, Repr

/-- Substring test, `s.includes(sub)`. -/
def includesStr (s sub : String) : Bool :=
  decide (sub.data <:+: s.data)

/-- The Annual Leave flag of `FoodAllowanceCalculator.loadTimesheetData`:
`projectName.toLowerCase().includes('annual leave')` (this report variant
keys on the marker phrase in the project name). -/
def isAnnualLeaveEntry (e : FEntry) : Bool :=
  includesStr (lowerStr e.projectName) "annual leave"

/-- Lookup in the materialized project-policy map (`projectPolicies`). -/
def lookupPolicy (pol : List (String × ProjPolicy)) (c : String) :
    Option ProjPolicy :=
  (pol.find? (fun p => decide (p.1 = c))).map (fun p => p.2)

/-- Lookup in the materialized employee-policy map (`employeePolicies`). -/
def lookupEmp (eps : List (String × EmpPolicy)) (n : String) :
    Option EmpPolicy :=
  (eps.find? (fun p => decide (p.1 = n))).map (fun p => p.2)

/-- Whether one entry makes its day eligible: the project-policy lookup and
policy matching inside the `for (const entry of dayEntries)` loop of
`calculateFoodAllowance`. -/
def entryEligible (pol : List (String × ProjPolicy)) (ep : EmpPolicy)
    (e : FEntry) : Bool :=
  match lookupPolicy pol e.projectCode with
  | some pp =>
    (decide (ep.policy = "Food Policy 1") && pp.policy1) ||
    (decide (ep.policy = "Food Policy 2") && pp.policy2)
  | none => false

/-- One line of the day-by-day breakdown. `reason` is set for ineligible
days, `eligibleProjects` for eligible ones (the source stores whichever
field applies). -/
structure DayResult where
  date : YMD
  projects : String
  eligible : Bool
  reason : String
  eligibleProjects : String
deriving DecidableEq, Repr

/-- The entries of one worked date: `dateMap[dateStr]`. -/
def onDate (entries : List FEntry) (d : YMD) : List FEntry :=
  entries.filter (fun e => decide (e.date = d))

/-- The breakdown line `calculateFoodAllowance` produces for one worked
date: Annual Leave first, then the any-entry eligibility test. -/
def dayResult (pol : List (String × ProjPolicy)) (ep : EmpPolicy)
    (entries : List FEntry) (d : YMD) : DayResult :=
  let es := onDate entries d
  let projectsStr := String.intercalate ", " (es.map (fun e => e.projectCode))
  if es.any isAnnualLeaveEntry then
    { date := d, projects := projectsStr, eligible := false,
      reason := "Annual Leave", eligibleProjects := "" }
  else if es.any (entryEligible pol ep) then
    { date := d, projects := projectsStr, eligible := true, reason := "",
      eligibleProjects := String.intercalate ", "
        ((es.filter (entryEligible pol ep)).map (fun e => e.projectCode)) }
  else
    { date := d, projects := projectsStr, eligible := false,
      reason := "Project not eligible", eligibleProjects := "" }

/-- The per-employee result of `calculateFoodAllowance`. -/
structure FoodSummary where
  policy : String
  amountPerDay : Rat
  eligibleDays : Nat
  totalAmount : Rat
  dailyBreakdown : List DayResult
deriving DecidableEq, Repr

/-- `FoodAllowanceCalculator.calculateFoodAllowance` for one employee found
in the employee-policy table: iterate the distinct worked dates, count the
dates that are not Annual Leave and have at least one eligible entry, and
multiply by the daily amount. -/
def foodSummary (pol : List (String × ProjPolicy)) (ep : EmpPolicy)
    (entries : List FEntry) : FoodSummary :=
  let dates := (entries.map (fun e => e.date)).dedup
  let eligibleOn := fun d =>
    !(onDate entries d).any isAnnualLeaveEntry &&
      (onDate entries d).any (entryEligible pol ep)
  let elig := dates.countP eligibleOn
  { policy := ep.policy, amountPerDay := ep.amount, eligibleDays := elig,
    totalAmount := (elig : Rat) * ep.amount,
    dailyBreakdown := dates.map (dayResult pol ep entries) }

/-- A full timesheet record with its employee, feeding `employeeData` of
both `FoodAllowanceCalculator` and `AbsenceReportGenerator`. -/
structure FRec where
  employeeName : String
  date : YMD
  projectCode : String
  projectName : String
deriving DecidableEq, Repr

/-- The entry list `employeeData[name]` of `FoodAllowanceCalculator`. -/
def fEntriesOf (recs : List FRec) (name : String) : List FEntry :=
  (recs.filter (fun r => decide (r.employeeName = name))).map
    (fun r => { date := r.date, projectCode := r.projectCode,
                projectName := r.projectName })

/-- The whole-run food-allowance map: an employee has a summary exactly
when it has at least one record (`for employeeName in employeeData`) and a
row in the employee-policy table (the `continue` guard). -/
def foodAllowanceAll (pol : List (String × ProjPolicy))
    (eps : List (String × EmpPolicy)) (recs : List FRec) (name : String) :
    Option FoodSummary :=
  if fEntriesOf recs name = [] then none
  else
    match lookupEmp eps name with
    | none => none
    | some ep => some (foodSummary pol ep (fEntriesOf recs name))

/-- The entry list `employeeData[name]` of `AbsenceReportGenerator`
(`isAnnualLeave` set when the code equals `A/L` up to case). -/
def aEntriesOf (recs : List FRec) (name : String) : List AEntry :=
  (recs.filter (fun r => decide (r.employeeName = name))).map
    (fun r => { date := r.date, projectCode := r.projectCode,
                projectName := r.projectName,
                isAnnualLeave := decide (upperStr r.projectCode = "A/L") })

/-- The whole-run payrun/absence map of
`AbsenceReportGenerator.calculatePayrunAndAbsence`: every employee with at
least one record gets a summary. -/
def absenceAll (y : Int) (m : Nat) (satFriEmployees : List String)
    (recs : List FRec) (name : String) : Option PayrunSummary :=
  if aEntriesOf recs name = [] then none
  else some (absenceSummary y m (satFriEmployees.contains name)
    (aEntriesOf recs name))

/-! ## Project Allocation Aggregator: `ProjectSummaryGenerator` -/

/-- An accepted allocation record (the fields `loadTimesheetData` keeps). -/
structure PRec where
  employeeName : String
  projectName : String
  date : YMD
deriving DecidableEq, Repr

/-- All distinct project names observed anywhere in the dataset
(`this.allProjects`). -/
def allProjects (recs : List PRec) : List String :=
  (recs.map (fun r => r.projectName)).dedup

/-- Distinct worked dates of one employee on one project
(`employeeProjects[employee][project].size`). -/
def projDays (recs : List PRec) (emp proj : String) : Nat :=
  ((recs.filter (fun r =>
      decide (r.employeeName = emp) && decide (r.projectName = proj))).map
    (fun r => r.date)).dedup.length

/-- Distinct worked dates of one employee over all projects
(`employeeWorkedDays[employee].size`). -/
def totalWorkedDays (recs : List PRec) (emp : String) : Nat :=
  ((recs.filter (fun r => decide (r.employeeName = emp))).map
    (fun r => r.date)).dedup.length

/-- `calculatePercentages`: `(projectDays / totalDays) * 100`, `0` when the
employee has no worked days. -/
def projPercentage (recs : List PRec) (emp proj : String) : Rat :=
  if 0 < totalWorkedDays recs emp then
    ((projDays recs emp proj : Rat) / (totalWorkedDays recs emp : Rat)) * 100
  else 0

/-- The row total accumulated in `createSheet`: the sum of the employee's
percentage over every project column. -/
def rowTotal (recs : List PRec) (emp : String) : Rat :=
  ((allProjects recs).map (projPercentage recs emp)).sum

/-- The Unassigned bucket of the `with-unassigned` sheet:
`Math.max(0, 100 - rowTotal)`. -/
def unassignedBucket (recs : List PRec) (emp : String) : Rat :=
  max 0 (100 - rowTotal recs emp)

/-- The value shown in the Total column of the `with-unassigned` sheet: the
source overwrites the accumulated total with the constant 100
(`rowTotal = 100`). -/
def unassignedModeDisplayedTotal (_recs : List PRec) (_emp : String) : Rat :=
  100

end Timesheet

namespace Timesheet

/-! ## Concrete record sets used by the claim instances -/

/-- The scenario record set of spec §8: employee A, two entries on
2024-03-01 (projects P1, P2) and one on 2024-03-08 (project P1). -/
def marchScenarioEntries : List AEntry :=
  [ { date := { year := 2024, month := 3, day := 1 }, projectCode := "P1",
      projectName := "P1", isAnnualLeave := false },
    { date := { year := 2024, month := 3, day := 1 }, projectCode := "P2",
      projectName := "P2", isAnnualLeave := false },
    { date := { year := 2024, month := 3, day := 8 }, projectCode := "P1",
      projectName := "P1", isAnnualLeave := false } ]

/-- A full March 2024 of attendance for the C8 witness. -/
def fullMarchEntries : List AEntry :=
  (List.range 31).map (fun i =>
    { date := { year := 2024, month := 3, day := i + 1 }, projectCode := "P1",
      projectName := "P1", isAnnualLeave := false })

/-- Two raw records of one employee on the same Friday, 2024-03-08. -/
def sameFridayGEntries : List GEntry :=
  [ { projectCode := "P1", projectName := "P1",
      date := { year := 2024, month := 3, day := 8 }, enteredBy := "x" },
    { projectCode := "P2", projectName := "P2",
      date := { year := 2024, month := 3, day := 8 }, enteredBy := "x" } ]

/-- The same two records as absence-report entries. -/
def sameFridayAEntries : List AEntry :=
  [ { date := { year := 2024, month := 3, day := 8 }, projectCode := "P1",
      projectName := "P1", isAnnualLeave := false },
    { date := { year := 2024, month := 3, day := 8 }, projectCode := "P2",
      projectName := "P2", isAnnualLeave := false } ]

/-- One employee, one worked date carrying two distinct projects. -/
def twoProjectsOneDay : List PRec :=
  [ { employeeName := "E", projectName := "P1",
      date := { year := 2024, month := 3, day := 4 } },
    { employeeName := "E", projectName := "P2",
      date := { year := 2024, month := 3, day := 4 } } ]

/-- One employee, one worked date, one project. -/
def oneProjectOneDay : List PRec :=
  [ { employeeName := "E", projectName := "P1",
      date := { year := 2024, month := 3, day := 4 } } ]

/-- A raw row with employee and valid in-window date but empty project
name. -/
def emptyProjectNameRow : RawRow :=
  { projectCode := "C1", projectName := "",
    dateCell := DateCell.parsed { year := 2024, month := 3, day := 4 },
    employeeName := "A", enteredBy := "B" }

/-- A fully-populated valid raw row for the C6 witness. -/
def validRow : RawRow :=
  { projectCode := "", projectName := "PN",
    dateCell := DateCell.parsed { year := 2024, month := 3, day := 5 },
    employeeName := "A", enteredBy := "" }

/-- The duplicate scenario: employee A files twice on the same date. -/
def duplicateScenario : List VRec :=
  [ { rowNumber := 2, projectCode := "P1", projectName := "Alpha",
      date := { year := 2024, month := 3, day := 4 }, employeeName := "A",
      enteredBy := "A" },
    { rowNumber := 3, projectCode := "P2", projectName := "Beta",
      date := { year := 2024, month := 3, day := 4 }, employeeName := "A",
      enteredBy := "A" },
    { rowNumber := 4, projectCode := "P1", projectName := "Alpha",
      date := { year := 2024, month := 3, day := 5 }, employeeName := "B",
      enteredBy := "B" } ]

/-- The inconsistency scenario of spec §8: code X2 recorded under two
genuinely different names. -/
def inconsistentScenario : List VRec :=
  [ { rowNumber := 2, projectCode := "X2", projectName := "Website Redesign",
      date := { year := 2024, month := 3, day := 4 }, employeeName := "A",
      enteredBy := "A" },
    { rowNumber := 3, projectCode := "X2", projectName := "Site Relaunch",
      date := { year := 2024, month := 3, day := 5 }, employeeName := "A",
      enteredBy := "A" } ]

/-- The witness scenario for C5: one Annual Leave day and one eligible
project day in March 2024. -/
def c5Policies : List (String × ProjPolicy) :=
  [ ("PC", { projectName := "Plant", location := "L",
             policy1 := true, policy2 := false }) ]

/-- The witness employee policy (Food Policy 1 at 200 per day). -/
def c5Emp : EmpPolicy := { policy := "Food Policy 1", amount := 200 }

/-- The witness entries: an Annual Leave record on 2024-03-06. -/
def c5Entries : List FEntry :=
  [ { date := { year := 2024, month := 3, day := 6 }, projectCode := "A/L",
      projectName := "Annual Leave" } ]

/-- The C9 witness record: employee B has one attendance record. -/
def c9Records : List FRec :=
  [ { employeeName := "B", date := { year := 2024, month := 3, day := 4 },
      projectCode := "P1", projectName := "Plant" } ]

/-- The C10 witness entries: one record on 2024-03-07 with a code unknown
to the (empty) project-policy table. -/
def c10Entries : List FEntry :=
  [ { date := { year := 2024, month := 3, day := 7 }, projectCode := "ZZ",
      projectName := "Mystery" } ]

end Timesheet

/-! ## General list lemmas used by the claim proofs -/
namespace Timesheet

lemma dedup_countP_card {α : Type} [DecidableEq α] (l : List α) (p : α → Bool) :
    l.dedup.countP p = (l.toFinset.filter (fun a => p a)).card := by
  have h1 : l.dedup.countP p = (l.dedup.filter p).length :=
    List.countP_eq_length_filter p l.dedup
  have h2 : (l.dedup.filter p).Nodup := (List.nodup_dedup l).filter p
  have h3 := List.toFinset_card_of_nodup h2
  have h4 : (l.dedup.filter p).toFinset = l.dedup.toFinset.filter (fun a => p a) :=
    List.toFinset_filter _ _
  have h5 : l.dedup.toFinset = l.toFinset := by
    ext a
    simp [List.mem_toFinset, List.mem_dedup]
  rw [h1, ← h3, h4, h5]

lemma mem_take_iff_getD {α : Type} (dflt : α) (l : List α) (n : Nat) (x : α) :
    x ∈ l.take n ↔ ∃ i, i < n ∧ i < l.length ∧ l.getD i dflt = x := by
  induction l generalizing n with
  | nil => simp
  | cons a t ih =>
    cases n with
    | zero => simp
    | succ k =>
      simp only [List.take_succ_cons, List.mem_cons, ih]
      constructor
      · rintro (rfl | ⟨i, h1, h2, h3⟩)
        · exact ⟨0, Nat.succ_pos k, Nat.succ_pos t.length, rfl⟩
        · exact ⟨i + 1, by omega, by simpa using h2, h3⟩
      · rintro ⟨i, h1, h2, h3⟩
        cases i with
        | zero => exact Or.inl h3.symm
        | succ j =>
          exact Or.inr ⟨j, by omega, by simpa using h2, h3⟩

lemma one_lt_dedup_length_iff {α : Type} [DecidableEq α] (l : List α) :
    1 < l.dedup.length ↔ ∃ a ∈ l, ∃ b ∈ l, a ≠ b := by
  constructor
  · intro hl
    rcases hd : l.dedup with _ | ⟨a, _ | ⟨b, t⟩⟩
    · rw [hd] at hl; simp at hl
    · rw [hd] at hl; simp at hl
    · have ha : a ∈ l := List.mem_dedup.1 (by rw [hd]; exact List.mem_cons_self _ _)
      have hb : b ∈ l := List.mem_dedup.1
        (by rw [hd]; exact List.mem_cons_of_mem _ (List.mem_cons_self _ _))
      have hnd := List.nodup_dedup l
      rw [hd] at hnd
      refine ⟨a, ha, b, hb, fun e => ?_⟩
      subst e
      exact (List.nodup_cons.1 hnd).1 (List.mem_cons_self _ _)
  · rintro ⟨a, ha, b, hb, hab⟩
    have ha2 : a ∈ l.dedup := List.mem_dedup.2 ha
    have hb2 : b ∈ l.dedup := List.mem_dedup.2 hb
    rcases hd : l.dedup with _ | ⟨c, t⟩
    · rw [hd] at ha2; simp at ha2
    · rw [hd] at ha2 hb2
      have ht : t ≠ [] := by
        rcases List.mem_cons.1 ha2 with rfl | hat
        · rcases List.mem_cons.1 hb2 with rfl | hbt
          · exact absurd rfl hab
          · rintro rfl; simp at hbt
        · rintro rfl; simp at hat
      have := List.length_pos.2 ht
      simp only [List.length_cons]
      omega

lemma find?_eq_of_mem {α : Type} [DecidableEq α] (l : List α) (d : α) (h : d ∈ l) :
    l.find? (fun x => decide (x = d)) = some d := by
  induction l with
  | nil => simp at h
  | cons a t ih =>
    by_cases ha : a = d
    · subst ha; simp
    · rcases List.mem_cons.1 h with rfl | ht
      · exact absurd rfl ha
      · rw [List.find?_cons_of_neg _ (by simpa using ha)]
        exact ih ht

end Timesheet

namespace Timesheet

/-! ## The claims -/

/-- C2, counterexample: on the spec scenario the code computes
`workedFridays = 2`, not 1, and March 2024 has 5 Fridays, not 4
(2024-03-01 is itself a Friday). -/
theorem march_scenario_claim_false :
    (absenceSummary 2024 3 false marchScenarioEntries).workedFridays ≠ 1 ∧
    countWeekdayInMonth 2024 3 5 ≠ 4 := by
  decide

/-- C2, amended: Friday-only policy on the scenario yields
`workedDays = 2`, `workedFridays = 2` (both distinct dates are Fridays),
`absence = max(0, 31 − 2 − (5 − 2)) = 26` and `payrunDays = 4`, March 2024
having 5 Fridays. -/
theorem march_scenario_summary :
    absenceSummary 2024 3 false marchScenarioEntries =
      { workedDays := 2, workedFridays := 2, workedSaturdays := 0,
        absence := 26, payrunDays := 4 } ∧
    countWeekdayInMonth 2024 3 5 = 5 ∧
    (26 : Int) = max 0 (31 - 2 - (5 - 2)) := by
  decide

/-- C8: in both reconciler paths `payrunDays = 30 − absence` for every
employee and month, whatever the month's actual length; in particular an
employee with zero absence gets `payrunDays = 30`. -/
theorem payrun_is_30_minus_absence (y : Int) (m : Nat) (sf : Bool)
    (entries : List AEntry) (gentries : List GEntry) :
    (absenceSummary y m sf entries).payrunDays =
      30 - (absenceSummary y m sf entries).absence ∧
    ((absenceSummary y m sf entries).absence = 0 →
      (absenceSummary y m sf entries).payrunDays = 30) ∧
    (generatorSummary y m sf gentries).totalPayrunDays =
      30 - (generatorSummary y m sf gentries).totalAbsentDays ∧
    ((generatorSummary y m sf gentries).totalAbsentDays = 0 →
      (generatorSummary y m sf gentries).totalPayrunDays = 30) := by
  refine ⟨rfl, fun h => ?_, rfl, fun h => ?_⟩
  · show 30 - (absenceSummary y m sf entries).absence = 30
    rw [h]; rfl
  · show 30 - (generatorSummary y m sf gentries).totalAbsentDays = 30
    rw [h]; rfl

theorem payrun_is_30_minus_absence_witness :
    (absenceSummary 2024 3 false fullMarchEntries).payrunDays = 30 :=
  (payrun_is_30_minus_absence 2024 3 false fullMarchEntries []).2.1 (by decide)

/-- C1, amended: the absence-report reconciler counts worked days, worked
Fridays and worked Saturdays over the set of distinct worked dates and
applies the two clamped policy formulas, while the timesheet-generator
reconciler uses the same formulas but counts `workedFridays` /
`workedSaturdays` once per raw record rather than per distinct date. -/
theorem reconciler_counts_and_formulas (y : Int) (m : Nat) (sf : Bool)
    (entries : List AEntry) (gentries : List GEntry) :
    (absenceSummary y m sf entries).workedDays =
      ((entries.map (fun e => e.date)).toFinset).card ∧
    (absenceSummary y m sf entries).workedFridays =
      ((entries.map (fun e => e.date)).toFinset.filter
        (fun d => dayOfWeek d == 5)).card ∧
    (absenceSummary y m sf entries).workedSaturdays =
      ((entries.map (fun e => e.date)).toFinset.filter
        (fun d => dayOfWeek d == 6)).card ∧
    (absenceSummary y m false entries).absence =
      max 0 ((daysInMonth y m : Int) -
        (absenceSummary y m false entries).workedDays -
        ((countWeekdayInMonth y m 5 : Int) -
          (absenceSummary y m false entries).workedFridays)) ∧
    (absenceSummary y m true entries).absence =
      max 0 ((daysInMonth y m : Int) -
        (absenceSummary y m true entries).workedDays -
        ((countWeekdayInMonth y m 5 : Int) + (countWeekdayInMonth y m 6 : Int) -
          (absenceSummary y m true entries).workedFridays -
          (absenceSummary y m true entries).workedSaturdays)) ∧
    (generatorSummary y m sf gentries).workedFridays =
      (gentries.filter (fun e => dayOfWeek e.date == 5)).length ∧
    (generatorSummary y m sf gentries).workedSaturdays =
      (gentries.filter (fun e => dayOfWeek e.date == 6)).length ∧
    (generatorSummary y m false gentries).totalAbsentDays =
      max 0 ((daysInMonth y m : Int) -
        ((gentries.map (fun e => e.date)).toFinset).card -
        ((countWeekdayInMonth y m 5 : Int) -
          (generatorSummary y m false gentries).workedFridays)) ∧
    (generatorSummary y m true gentries).totalAbsentDays =
      max 0 ((daysInMonth y m : Int) -
        ((gentries.map (fun e => e.date)).toFinset).card -
        ((countWeekdayInMonth y m 5 : Int) + (countWeekdayInMonth y m 6 : Int) -
          (generatorSummary y m true gentries).workedFridays -
          (generatorSummary y m true gentries).workedSaturdays)) := by
  refine ⟨?_, ?_, ?_, rfl, rfl, ?_, ?_, ?_, ?_⟩
  · exact (List.card_toFinset _).symm
  · exact (dedup_countP_card _ _)
  · exact (dedup_countP_card _ _)
  · exact List.countP_eq_length_filter _ _
  · exact List.countP_eq_length_filter _ _
  · rw [List.card_toFinset]
    rfl
  · rw [List.card_toFinset]
    rfl

/-- C1, counterexample: with two records on one Friday the
timesheet-generator reconciler reports `workedFridays = 2` although only
one distinct worked date falls on a Friday, and its absence figure (27)
differs from the absence-report reconciler's (26) on the same records. -/
theorem generator_fridays_count_raw_records :
    (generatorSummary 2024 3 false sameFridayGEntries).workedFridays = 2 ∧
    ((sameFridayGEntries.map (fun e => e.date)).toFinset.filter
      (fun d => dayOfWeek d == 5)).card = 1 ∧
    (generatorSummary 2024 3 false sameFridayGEntries).totalAbsentDays = 27 ∧
    (absenceSummary 2024 3 false sameFridayAEntries).absence = 26 := by
  decide

/-- C7, amended: in with-unassigned mode the Unassigned bucket is
`max(0, 100 − rowTotal)`; the actual sum of project percentages plus
Unassigned is 100 when the project sum is at most 100, but stays above 100
when the project sum exceeds 100 (the Unassigned bucket is then 0); the
Total cell itself is overwritten with the constant 100. -/
theorem unassigned_bucket_row_total (recs : List PRec) (emp : String) :
    unassignedBucket recs emp = max 0 (100 - rowTotal recs emp) ∧
    (rowTotal recs emp ≤ 100 →
      rowTotal recs emp + unassignedBucket recs emp = 100) ∧
    (100 < rowTotal recs emp →
      unassignedBucket recs emp = 0 ∧
      100 < rowTotal recs emp + unassignedBucket recs emp) ∧
    unassignedModeDisplayedTotal recs emp = 100 := by
  refine ⟨rfl, fun h => ?_, fun h => ?_, rfl⟩
  · have h0 : (0 : Rat) ≤ 100 - rowTotal recs emp := by linarith
    rw [unassignedBucket, max_eq_right h0]
    ring
  · have h0 : unassignedBucket recs emp = 0 := by
      rw [unassignedBucket, max_eq_left (by linarith)]
    exact ⟨h0, by rw [h0]; linarith⟩

/-- C7, counterexample: with two projects on one worked date the project
percentages sum to 200, the Unassigned bucket is 0, and the actual row sum
(200) is not within 0.1 of 100. -/
theorem unassigned_row_sum_exceeds_100 :
    rowTotal twoProjectsOneDay "E" + unassignedBucket twoProjectsOneDay "E" = 200 ∧
    ¬ (|rowTotal twoProjectsOneDay "E" + unassignedBucket twoProjectsOneDay "E" - 100|
        ≤ 1 / 10) := by
  have ht : rowTotal twoProjectsOneDay "E" = 200 := by
    simp [rowTotal, twoProjectsOneDay, allProjects, projPercentage, projDays,
      totalWorkedDays]
    norm_num
  have hu : unassignedBucket twoProjectsOneDay "E" = 0 := by
    rw [unassignedBucket, ht, max_eq_left (by norm_num)]
  rw [ht, hu]
  norm_num

theorem unassigned_bucket_row_total_witness :
    rowTotal oneProjectOneDay "E" + unassignedBucket oneProjectOneDay "E" = 100 :=
  (unassigned_bucket_row_total oneProjectOneDay "E").2.1 (by
    simp [rowTotal, oneProjectOneDay, allProjects, projPercentage, projDays,
      totalWorkedDays])

/-- C6, amended: the timesheet-generator ingest skips a row exactly when
the employee name or date cell is empty, the date does not parse, or the
parsed date is outside the target month/year; accepted records carry an
in-window date and empty project code/name/enteredBy cells default to the
`--` sentinel.  The project-summary ingest additionally skips rows whose
project name cell is empty. -/
theorem ingest_skip_conditions (m : Nat) (y : Int) (r : RawRow) :
    (processRow m y r = none ↔
      r.employeeName = "" ∨ r.dateCell = DateCell.empty ∨
      r.dateCell = DateCell.invalid ∨
      ∃ d, r.dateCell = DateCell.parsed d ∧ (d.month ≠ m ∨ d.year ≠ y)) ∧
    (∀ rec, processRow m y r = some rec →
      rec.date.month = m ∧ rec.date.year = y ∧
      rec.employeeName = r.employeeName ∧
      (r.projectCode = "" → rec.projectCode = "--") ∧
      (r.projectCode ≠ "" → rec.projectCode = r.projectCode) ∧
      (r.projectName = "" → rec.projectName = "--") ∧
      (r.projectName ≠ "" → rec.projectName = r.projectName) ∧
      (r.enteredBy = "" → rec.enteredBy = "--") ∧
      (r.enteredBy ≠ "" → rec.enteredBy = r.enteredBy)) ∧
    (psProcessRow m y r = none ↔
      r.employeeName = "" ∨ r.projectName = "" ∨ r.dateCell = DateCell.empty ∨
      r.dateCell = DateCell.invalid ∨
      ∃ d, r.dateCell = DateCell.parsed d ∧ (d.month ≠ m ∨ d.year ≠ y)) := by
  refine ⟨?_, ?_, ?_⟩
  · rcases hdc : r.dateCell with _ | d | _
    · by_cases he : r.employeeName = "" <;> simp [processRow, hdc, he]
    · by_cases he : r.employeeName = "" <;>
        by_cases hmy : (d.month = m ∧ d.year = y) <;>
        (simp [processRow, hdc, he, hmy]; try tauto)
    · by_cases he : r.employeeName = "" <;> simp [processRow, hdc, he]
  · intro rec hrec
    rcases hdc : r.dateCell with _ | d | _ <;>
      rw [processRow, hdc] at hrec <;>
      by_cases he : r.employeeName = "" <;>
      simp [he] at hrec
    obtain ⟨⟨hm, hy⟩, hrec2⟩ := hrec
    subst hrec2
    refine ⟨hm, hy, rfl, ?_, ?_, ?_, ?_, ?_, ?_⟩ <;>
      intro hc <;> simp [hc]
  · rcases hdc : r.dateCell with _ | d | _
    · by_cases he : r.employeeName = "" <;> by_cases hp : r.projectName = "" <;>
        simp [psProcessRow, hdc, he, hp]
    · by_cases he : r.employeeName = "" <;>
        by_cases hp : r.projectName = "" <;>
        by_cases hmy : (d.month = m ∧ d.year = y) <;>
        (simp [psProcessRow, hdc, he, hp, hmy]; try tauto)
    · by_cases he : r.employeeName = "" <;> by_cases hp : r.projectName = "" <;>
        simp [psProcessRow, hdc, he, hp]

/-- C6, counterexample: the project-summary ingest drops a row whose only
defect is an empty project name, although the employee name is present and
the date parses inside the target month; the timesheet-generator ingest
accepts the same row and defaults the project name to the sentinel. -/
theorem ps_ingest_rejects_empty_project_name :
    psProcessRow 3 2024 emptyProjectNameRow = none ∧
    emptyProjectNameRow.employeeName ≠ "" ∧
    emptyProjectNameRow.dateCell =
      DateCell.parsed { year := 2024, month := 3, day := 4 } ∧
    processRow 3 2024 emptyProjectNameRow =
      some { projectCode := "C1", projectName := "--",
             date := { year := 2024, month := 3, day := 4 },
             employeeName := "A", enteredBy := "B" } := by
  decide

theorem ingest_skip_conditions_witness :
    ({ projectCode := "--", projectName := "PN",
       date := { year := 2024, month := 3, day := 5 },
       employeeName := "A", enteredBy := "--" } : IngestedRecord).date.month = 3 ∧
    ({ projectCode := "--", projectName := "PN",
       date := { year := 2024, month := 3, day := 5 },
       employeeName := "A", enteredBy := "--" } : IngestedRecord).date.year = 2024 := by
  have h := (ingest_skip_conditions 3 2024 validRow).2.1
    { projectCode := "--", projectName := "PN",
      date := { year := 2024, month := 3, day := 5 },
      employeeName := "A", enteredBy := "--" } (by decide)
  exact ⟨h.1, h.2.1⟩

lemma isDupAt_iff (rs : List VRec) (i : Nat) (h : i < rs.length) :
    isDupAt rs i = true ↔
      ∃ j, j < i ∧ vkey (rs.getD j defaultVRec) = vkey (rs.getD i defaultVRec) := by
  unfold isDupAt
  rw [List.any_eq_true]
  constructor
  · rintro ⟨r, hr, hkey⟩
    obtain ⟨j, hj1, hj2, hj3⟩ := (mem_take_iff_getD defaultVRec rs i r).1 hr
    exact ⟨j, hj1, by rw [hj3]; exact of_decide_eq_true hkey⟩
  · rintro ⟨j, hji, hkey⟩
    refine ⟨rs.getD j defaultVRec, ?_, decide_eq_true hkey⟩
    exact (mem_take_iff_getD defaultVRec rs i _).2 ⟨j, hji, lt_trans hji h, rfl⟩

lemma mem_cleanIndices_iff (rs : List VRec) (i : Nat) :
    i ∈ cleanIndices rs ↔ i < rs.length ∧ isDupAt rs i = false := by
  unfold cleanIndices
  rw [List.mem_filter, List.mem_range]
  simp [Bool.not_eq_true]

lemma exists_clean_rep (rs : List VRec) :
    ∀ i, i < rs.length →
      ∃ j, j ∈ cleanIndices rs ∧
        vkey (rs.getD j defaultVRec) = vkey (rs.getD i defaultVRec) := by
  intro i
  induction i using Nat.strong_induction_on with
  | _ i ih =>
    intro h
    by_cases hd : isDupAt rs i = true
    · obtain ⟨j, hji, hkey⟩ := (isDupAt_iff rs i h).1 hd
      obtain ⟨k, hk, hkk⟩ := ih j hji (lt_trans hji h)
      exact ⟨k, hk, hkk.trans hkey⟩
    · exact ⟨i, (mem_cleanIndices_iff rs i).2 ⟨h, Bool.not_eq_true _ ▸ hd⟩, rfl⟩

/-- C3: the first record of each (employee, date key) is never tagged
Duplicate and is kept in the clean set even when Inconsistent; every later
record with the same key is tagged Duplicate and dropped; the clean set
holds exactly one position per distinct key. -/
theorem auditor_clean_set (rs : List VRec) (i : Nat) (h : i < rs.length) :
    ((∀ j, j < i → vkey (rs.getD j defaultVRec) ≠ vkey (rs.getD i defaultVRec)) →
      statusAt rs i ≠ VStatus.duplicate ∧ i ∈ cleanIndices rs) ∧
    ((∃ j, j < i ∧ vkey (rs.getD j defaultVRec) = vkey (rs.getD i defaultVRec)) →
      statusAt rs i = VStatus.duplicate ∧ i ∉ cleanIndices rs) ∧
    (∀ j k, j ∈ cleanIndices rs → k ∈ cleanIndices rs →
      vkey (rs.getD j defaultVRec) = vkey (rs.getD k defaultVRec) → j = k) ∧
    (∃ j, j ∈ cleanIndices rs ∧
      vkey (rs.getD j defaultVRec) = vkey (rs.getD i defaultVRec)) := by
  refine ⟨?_, ?_, ?_, exists_clean_rep rs i h⟩
  · intro hno
    have hd : isDupAt rs i = false := by
      rw [← Bool.not_eq_true]
      intro hdup
      obtain ⟨j, hji, hkey⟩ := (isDupAt_iff rs i h).1 hdup
      exact hno j hji hkey
    constructor
    · simp only [statusAt, hd, Bool.false_eq_true, if_false]
      split <;> simp
    · exact (mem_cleanIndices_iff rs i).2 ⟨h, hd⟩
  · intro hex
    have hd : isDupAt rs i = true := (isDupAt_iff rs i h).2 hex
    constructor
    · simp [statusAt, hd]
    · intro hmem
      rw [mem_cleanIndices_iff] at hmem
      rw [hmem.2] at hd
      cases hd
  · intro j k hj hk hkey
    rw [mem_cleanIndices_iff] at hj hk
    rcases lt_trichotomy j k with hlt | heq | hgt
    · exfalso
      have : isDupAt rs k = true := (isDupAt_iff rs k hk.1).2 ⟨j, hlt, hkey⟩
      rw [hk.2] at this
      cases this
    · exact heq
    · exfalso
      have : isDupAt rs j = true := (isDupAt_iff rs j hj.1).2 ⟨k, hgt, hkey.symm⟩
      rw [hj.2] at this
      cases this

theorem auditor_clean_set_witness :
    statusAt duplicateScenario 1 = VStatus.duplicate ∧
    1 ∉ cleanIndices duplicateScenario :=
  (auditor_clean_set duplicateScenario 1 (by decide)).2.1
    ⟨0, by decide, by decide⟩

/-- C4: a project code is reported inconsistent exactly when two of its
records disagree on the normalized (lowercased, trimmed,
whitespace-collapsed) project name, and the single status tag of a record
is Duplicate exactly when it repeats a key, Inconsistent exactly when it is
not a duplicate and its code is inconsistent, and Clean otherwise. -/
theorem auditor_inconsistency_rules (rs : List VRec) (c : String) (i : Nat)
    (_h : i < rs.length) :
    (inconsistentCode rs c = true ↔
      ∃ r1 ∈ recordsWithCode rs c, ∃ r2 ∈ recordsWithCode rs c,
        normalizeProjectName r1.projectName ≠ normalizeProjectName r2.projectName) ∧
    (statusAt rs i = VStatus.duplicate ↔ isDupAt rs i = true) ∧
    (statusAt rs i = VStatus.inconsistent ↔
      (isDupAt rs i = false ∧
        inconsistentCode rs (rs.getD i defaultVRec).projectCode = true)) ∧
    (statusAt rs i = VStatus.clean ↔
      (isDupAt rs i = false ∧
        inconsistentCode rs (rs.getD i defaultVRec).projectCode = false)) := by
  refine ⟨?_, ?_, ?_, ?_⟩
  · unfold inconsistentCode
    rw [decide_eq_true_eq, one_lt_dedup_length_iff]
    constructor
    · rintro ⟨a, ha, b, hb, hab⟩
      obtain ⟨r1, hr1, hfa⟩ := List.mem_map.1 ha
      obtain ⟨r2, hr2, hfb⟩ := List.mem_map.1 hb
      exact ⟨r1, hr1, r2, hr2, by rw [hfa, hfb]; exact hab⟩
    · rintro ⟨r1, hr1, r2, hr2, hne⟩
      exact ⟨normalizeProjectName r1.projectName, List.mem_map_of_mem _ hr1,
        normalizeProjectName r2.projectName, List.mem_map_of_mem _ hr2, hne⟩
  · unfold statusAt
    by_cases hd : isDupAt rs i
    · simp [hd]
    · simp only [hd, Bool.false_eq_true, if_false]
      split <;> simp [hd]
  · unfold statusAt
    by_cases hd : isDupAt rs i <;>
      by_cases hc : inconsistentCode rs (rs.getD i defaultVRec).projectCode <;>
      simp [hd, hc]
  · unfold statusAt
    by_cases hd : isDupAt rs i <;>
      by_cases hc : inconsistentCode rs (rs.getD i defaultVRec).projectCode <;>
      simp [hd, hc]

theorem auditor_inconsistency_rules_witness :
    ∃ r1 ∈ recordsWithCode inconsistentScenario "X2",
      ∃ r2 ∈ recordsWithCode inconsistentScenario "X2",
        normalizeProjectName r1.projectName ≠ normalizeProjectName r2.projectName :=
  (auditor_inconsistency_rules inconsistentScenario "X2" 0 (by decide)).1.mp
    (by decide)

lemma dayResult_date (pol : List (String × ProjPolicy)) (ep : EmpPolicy)
    (entries : List FEntry) (d : YMD) :
    (dayResult pol ep entries d).date = d := by
  unfold dayResult
  dsimp only
  split
  · rfl
  split <;> rfl

lemma breakdown_find (pol : List (String × ProjPolicy)) (ep : EmpPolicy)
    (entries : List FEntry) (d : YMD)
    (hd : d ∈ (entries.map (fun e => e.date)).dedup) :
    (foodSummary pol ep entries).dailyBreakdown.find?
      (fun r => decide (r.date = d)) = some (dayResult pol ep entries d) := by
  show (((entries.map (fun e => e.date)).dedup).map
      (dayResult pol ep entries)).find? (fun r => decide (r.date = d)) = _
  rw [List.find?_map]
  have hcong : ((fun r => decide (r.date = d)) ∘ dayResult pol ep entries) =
      (fun x => decide (x = d)) := by
    funext x
    simp [Function.comp, dayResult_date]
  rw [hcong, find?_eq_of_mem _ _ hd]
  rfl

lemma entryEligible_iff (pol : List (String × ProjPolicy)) (ep : EmpPolicy)
    (e : FEntry) :
    entryEligible pol ep e = true ↔
      ∃ pp, lookupPolicy pol e.projectCode = some pp ∧
        ((ep.policy = "Food Policy 1" ∧ pp.policy1 = true) ∨
         (ep.policy = "Food Policy 2" ∧ pp.policy2 = true)) := by
  unfold entryEligible
  rcases h : lookupPolicy pol e.projectCode with _ | pp
  · simp
  · simp [Bool.or_eq_true, Bool.and_eq_true, decide_eq_true_eq]

/-- C5: for each distinct worked date of an employee with a policy row, a
day containing an Annual Leave record is ineligible with reason
"Annual Leave"; otherwise the day is eligible exactly when some record of
that day carries a project whose flag for the employee's policy is set;
`eligibleDays` counts the eligible distinct dates and
`totalAmount = eligibleDays × amountPerDay`. -/
theorem food_allowance_day_eligibility (pol : List (String × ProjPolicy))
    (ep : EmpPolicy) (entries : List FEntry) (d : YMD)
    (hd : d ∈ (entries.map (fun e => e.date)).dedup) :
    ((foodSummary pol ep entries).dailyBreakdown.find?
      (fun r => decide (r.date = d)) = some (dayResult pol ep entries d)) ∧
    ((∃ e ∈ onDate entries d, isAnnualLeaveEntry e = true) →
      (dayResult pol ep entries d).eligible = false ∧
      (dayResult pol ep entries d).reason = "Annual Leave") ∧
    ((∀ e ∈ onDate entries d, isAnnualLeaveEntry e = false) →
      ((dayResult pol ep entries d).eligible = true ↔
        ∃ e ∈ onDate entries d, ∃ pp,
          lookupPolicy pol e.projectCode = some pp ∧
          ((ep.policy = "Food Policy 1" ∧ pp.policy1 = true) ∨
           (ep.policy = "Food Policy 2" ∧ pp.policy2 = true)))) ∧
    ((foodSummary pol ep entries).eligibleDays =
      ((entries.map (fun e => e.date)).toFinset.filter
        (fun x => !(onDate entries x).any isAnnualLeaveEntry &&
          (onDate entries x).any (entryEligible pol ep))).card) ∧
    ((foodSummary pol ep entries).totalAmount =
      ((foodSummary pol ep entries).eligibleDays : Rat) * ep.amount) := by
  refine ⟨breakdown_find pol ep entries d hd, ?_, ?_,
    dedup_countP_card _ _, rfl⟩
  · rintro ⟨e, he, hal⟩
    have hany : (onDate entries d).any isAnnualLeaveEntry = true :=
      List.any_eq_true.2 ⟨e, he, hal⟩
    unfold dayResult
    dsimp only
    rw [if_pos hany]
    exact ⟨rfl, rfl⟩
  · intro hno
    have hany : (onDate entries d).any isAnnualLeaveEntry = false := by
      rw [List.any_eq_false]
      intro e he
      simp [hno e he]
    unfold dayResult
    dsimp only
    rw [if_neg (by simp [hany])]
    by_cases helig : (onDate entries d).any (entryEligible pol ep) = true
    · rw [if_pos helig]
      simp only [true_iff]
      obtain ⟨e, he, heq⟩ := List.any_eq_true.1 helig
      exact ⟨e, he, (entryEligible_iff pol ep e).1 heq⟩
    · rw [if_neg helig]
      simp only [Bool.false_eq_true, false_iff]
      rintro ⟨e, he, hpp⟩
      exact helig (List.any_eq_true.2 ⟨e, he, (entryEligible_iff pol ep e).2 hpp⟩)

theorem food_allowance_day_eligibility_witness :
    (dayResult c5Policies c5Emp c5Entries
      { year := 2024, month := 3, day := 6 }).eligible = false ∧
    (dayResult c5Policies c5Emp c5Entries
      { year := 2024, month := 3, day := 6 }).reason = "Annual Leave" :=
  (food_allowance_day_eligibility c5Policies c5Emp c5Entries
      { year := 2024, month := 3, day := 6 } (by decide)).2.1
    ⟨{ date := { year := 2024, month := 3, day := 6 }, projectCode := "A/L",
       projectName := "Annual Leave" }, by decide, by decide⟩

/-- C9: an employee with attendance records but no employee-policy row gets
no food-allowance summary yet keeps an absence summary, and its records do
not change any other employee's food-allowance result. -/
theorem unlisted_employee_excluded (pol : List (String × ProjPolicy))
    (eps : List (String × EmpPolicy)) (recs extra : List FRec) (y : Int)
    (m : Nat) (sat : List String) (name othr : String)
    (hmiss : lookupEmp eps name = none) :
    foodAllowanceAll pol eps recs name = none ∧
    (fEntriesOf recs name ≠ [] → absenceAll y m sat recs name ≠ none) ∧
    ((∀ r ∈ extra, r.employeeName = name) → othr ≠ name →
      foodAllowanceAll pol eps (recs ++ extra) othr =
        foodAllowanceAll pol eps recs othr) := by
  refine ⟨?_, ?_, ?_⟩
  · unfold foodAllowanceAll
    split
    · rfl
    · rw [hmiss]
  · intro hne
    unfold absenceAll
    rw [if_neg ?_]
    · exact Option.some_ne_none _
    · unfold fEntriesOf at hne
      unfold aEntriesOf
      simpa [List.map_eq_nil_iff] using hne
  · intro hall hne
    have hfe : fEntriesOf (recs ++ extra) othr = fEntriesOf recs othr := by
      unfold fEntriesOf
      rw [List.filter_append]
      have : extra.filter (fun r => decide (r.employeeName = othr)) = [] := by
        rw [List.filter_eq_nil_iff]
        intro r hr
        simp [hall r hr, Ne.symm hne]
      rw [this, List.append_nil]
    unfold foodAllowanceAll
    rw [hfe]

theorem unlisted_employee_excluded_witness :
    foodAllowanceAll [] [] c9Records "B" = none ∧
    absenceAll 2024 3 [] c9Records "B" ≠ none := by
  have h := unlisted_employee_excluded [] [] c9Records [] 2024 3 [] "B" "X" rfl
  exact ⟨h.1, h.2.1 (by decide)⟩

/-- C10: a record whose project code has no project-policy row never makes
a day eligible, and a worked date all of whose records carry unknown codes
and none of which is Annual Leave is reported ineligible with reason
"Project not eligible". -/
theorem unknown_project_never_eligible (pol : List (String × ProjPolicy))
    (ep : EmpPolicy) (entries : List FEntry) (d : YMD)
    (hd : d ∈ (entries.map (fun e => e.date)).dedup)
    (hall : ∀ e ∈ onDate entries d, lookupPolicy pol e.projectCode = none)
    (hnal : ∀ e ∈ onDate entries d, isAnnualLeaveEntry e = false) :
    (∀ e : FEntry, lookupPolicy pol e.projectCode = none →
      entryEligible pol ep e = false) ∧
    (dayResult pol ep entries d).eligible = false ∧
    (dayResult pol ep entries d).reason = "Project not eligible" ∧
    (foodSummary pol ep entries).dailyBreakdown.find?
      (fun r => decide (r.date = d)) = some (dayResult pol ep entries d) := by
  have hsingle : ∀ e : FEntry, lookupPolicy pol e.projectCode = none →
      entryEligible pol ep e = false := by
    intro e he
    unfold entryEligible
    rw [he]
  have hany : (onDate entries d).any isAnnualLeaveEntry = false := by
    rw [List.any_eq_false]
    intro e he
    simp [hnal e he]
  have helig : (onDate entries d).any (entryEligible pol ep) = false := by
    rw [List.any_eq_false]
    intro e he
    simp [hsingle e (hall e he)]
  refine ⟨hsingle, ?_, ?_, breakdown_find pol ep entries d hd⟩
  · unfold dayResult
    dsimp only
    rw [if_neg (by simp [hany]), if_neg (by simp [helig])]
  · unfold dayResult
    dsimp only
    rw [if_neg (by simp [hany]), if_neg (by simp [helig])]

theorem unknown_project_never_eligible_witness :
    (dayResult [] { policy := "Food Policy 1", amount := 10 } c10Entries
      { year := 2024, month := 3, day := 7 }).eligible = false ∧
    (dayResult [] { policy := "Food Policy 1", amount := 10 } c10Entries
      { year := 2024, month := 3, day := 7 }).reason = "Project not eligible" := by
  have h := unknown_project_never_eligible []
    { policy := "Food Policy 1", amount := 10 } c10Entries
    { year := 2024, month := 3, day := 7 } (by decide) (by decide) (by decide)
  exact ⟨h.2.1, h.2.2.1⟩

end Timesheet
